import Mathlib

/-!
Shallow embedding of the OCR extraction core of the zenithino repository
(src/modules/ocr): the extraction orchestrator (OcrService.extractFromFile,
runOcrWithRetries, getCleanerText), the digital text extractor
(PdfTextExtractor.extractPageText) and the option-defaulting logic.

Modelling conventions:
- JS strings are modelled as Lean String; the relevant inputs are ASCII, where
  the JS UTF-16 .length and Lean String.length agree.
- JS numeric option fields are modelled as Option Nat (absent = undefined); the
  JS expression (options?.x || d) maps undefined and 0 to the default d.
- The float comparison (cleanDigital.length > cleanOcr.length * 0.8) is modelled
  exactly over integers as 5 * cleanDigital.length > 4 * cleanOcr.length, and
  the float average comparison (total / count > 3) as total > 3 * count; for
  realistic sizes (far below 2 to the 52) the double arithmetic agrees.
- Asynchronous effects (pdf parsing, rasterization, preprocessing, OCR, the
  user progress callback) are modelled by an explicit environment describing
  the outcome of each external call; JS exceptions become Except values.
- Array.prototype.sort with the comparator on pageNumber is a stable
  comparator sort; every stable sort yields the same output, so it is embedded
  as List.insertionSort on the page-number ordering.
-/

namespace Zenithino

/-- The set matched by the JS regular expression class backslash-s
(whitespace), by code point. -/
def isJsWhitespace (c : Char) : Bool :=
  c.toNat = 9 || c.toNat = 10 || c.toNat = 11 || c.toNat = 12 || c.toNat = 13 ||
  c.toNat = 32 || c.toNat = 0xa0 || c.toNat = 0x1680 ||
  (0x2000 ≤ c.toNat && c.toNat ≤ 0x200a) || c.toNat = 0x2028 ||
  c.toNat = 0x2029 || c.toNat = 0x202f || c.toNat = 0x205f ||
  c.toNat = 0x3000 || c.toNat = 0xfeff

/-- Splits a character list at whitespace, keeping the non-empty maximal runs
of non-whitespace characters, accumulator style. -/
def jsWordsAux : List Char → List Char → List (List Char)
  | [], cur => if cur = [] then [] else [cur.reverse]
  | c :: cs, cur =>
    if isJsWhitespace c then
      if cur = [] then jsWordsAux cs [] else cur.reverse :: jsWordsAux cs []
    else jsWordsAux cs (c :: cur)

/-- The maximal non-whitespace runs of a string, in order. -/
def jsWords (s : String) : List String :=
  (jsWordsAux s.data []).map (fun w => String.mk w)

/-- The JS expression s.replace of one-or-more whitespace by a single space,
followed by trim: the non-whitespace runs joined by single spaces. -/
def collapseWs (s : String) : String :=
  String.intercalate " " (jsWords s)

example : collapseWs "  a \t b  " = "a b" := by decide
example : collapseWs "" = "" := by decide
example : collapseWs "abc" = "abc" := by decide

-- OcrService default constants (ocr.service.ts lines 327-330).
def DEFAULT_CONCURRENCY : Nat := 4
def DEFAULT_DPI : Nat := 300
def DEFAULT_DIGITAL_TEXT_THRESHOLD : Nat := 20
def DEFAULT_OCR_TIMEOUT_MS : Nat := 120000

/-- The ocrFallback policy enum of ExtractOptions. -/
inductive OcrFallback where
  | whenEmpty
  | always
  | preferLonger
deriving DecidableEq

/-- Caller-supplied ExtractOptions (interfaces/ocr.interfaces.ts); every field
optional. Fields irrelevant to the verified claims (preprocess, tesseractConfig)
carry no data the orchestrator control flow depends on and are omitted; the
progress callback is part of the run environment below. -/
structure ExtractOptions where
  languages : Option (List String) := none
  concurrency : Option Nat := none
  dpi : Option Nat := none
  digitalTextThreshold : Option Nat := none
  ocrFallback : Option OcrFallback := none
  timeoutMs : Option Nat := none
  debug : Option Bool := none

/-- The effective-options snapshot built at the top of extractFromFile. -/
structure EffectiveOptions where
  languages : List String
  concurrency : Nat
  dpi : Nat
  digitalTextThreshold : Nat
  ocrFallback : OcrFallback
  timeoutMs : Nat
  debug : Bool
deriving DecidableEq

/-- JS (x || d) for an optional numeric field: undefined and 0 (the falsy
number inputs in scope) both yield the default. -/
def jsNumOr (v : Option Nat) (d : Nat) : Nat :=
  match v with
  | none => d
  | some n => if n = 0 then d else n

/-- The effective-options construction of extractFromFile (ocr.service.ts
lines 360-371), field by field with the JS or-else defaulting. A supplied
empty language list is truthy in JS (arrays are objects) and is kept; a
supplied debug false coincides with the default. -/
def mkEffectiveOptions (options : ExtractOptions) : EffectiveOptions :=
  { languages := options.languages.getD ["eng"]
    concurrency := jsNumOr options.concurrency DEFAULT_CONCURRENCY
    dpi := jsNumOr options.dpi DEFAULT_DPI
    digitalTextThreshold := jsNumOr options.digitalTextThreshold DEFAULT_DIGITAL_TEXT_THRESHOLD
    ocrFallback := options.ocrFallback.getD OcrFallback.whenEmpty
    timeoutMs := jsNumOr options.timeoutMs DEFAULT_OCR_TIMEOUT_MS
    debug := options.debug.getD false }

/-- Heuristic confidence labels of PageResult. -/
inductive Confidence where
  | high
  | low
  | ocr
deriving DecidableEq

/-- PageResult (interfaces/ocr.interfaces.ts). ocrConfidence is modelled as
Option Nat (null = none); the claims only inspect its null-ness. -/
structure PageResult where
  pageNumber : Nat
  isDigital : Bool
  ocrUsed : Bool
  text : String
  charCount : Nat
  ocrConfidence : Option Nat
  confidence : Confidence
deriving DecidableEq

/-- ExtractError (interfaces/ocr.interfaces.ts); the stack field carries no
verified information and is omitted. -/
structure ExtractError where
  page : Option Nat
  message : String
deriving DecidableEq

/-- The stats block of ExtractResult. timeMs is wall-clock time and is not
modelled. -/
structure ExtractStats where
  pagesOcrd : Nat
  concurrency : Nat
  digitalPages : Nat
  scannedPages : Nat
deriving DecidableEq

/-- ExtractResult (interfaces/ocr.interfaces.ts). -/
structure ExtractResult where
  numPages : Nat
  pages : List PageResult
  fullText : String
  errors : List ExtractError
  stats : ExtractStats
deriving DecidableEq

/-- The needsOcr decision expression of extractFromFile (ocr.service.ts lines
408-412), verbatim clause by clause. -/
def needsOcr (isDigital : Bool) (digitalTextLength threshold : Nat)
    (fb : OcrFallback) : Bool :=
  (!isDigital && !(decide (fb = OcrFallback.always))) ||
  (isDigital && decide (digitalTextLength < threshold) && !(decide (fb = OcrFallback.whenEmpty))) ||
  decide (fb = OcrFallback.always) ||
  decide (fb = OcrFallback.preferLonger)

/-- getCleanerText (ocr.service.ts lines 576-584): whitespace-collapse both
texts, keep the digital one when its length beats 80 percent of the OCR length
and the hardcoded DEFAULT_DIGITAL_TEXT_THRESHOLD, else keep the OCR one. -/
def getCleanerText (digitalText ocrText : String) : String :=
  let cleanDigital := collapseWs digitalText
  let cleanOcr := collapseWs ocrText
  if 5 * cleanDigital.length > 4 * cleanOcr.length &&
      cleanDigital.length > DEFAULT_DIGITAL_TEXT_THRESHOLD then
    cleanDigital
  else
    cleanOcr

/-- The prefer-longer merge applied after a successful OCR run (ocr.service.ts
lines 453-460): the page text becomes getCleanerText of the two, and the
confidence label is ocr exactly when the chosen text is (string-) equal to the
raw OCR text, else high. -/
def preferLongerMerge (digitalText ocrText : String) : String × Confidence :=
  let t := getCleanerText digitalText ocrText
  (t, if t = ocrText then Confidence.ocr else Confidence.high)

/-- PdfTextExtractor.extractPageText (pdf-text-extractor.ts lines 20-73),
modelled on the list of text items of the page returned by getTextContent
(called without includeMarkedContent, so every item carries a str field):
concatenates the item strings with trailing spaces and collapses whitespace,
and classifies the page as digital when the total character count reaches the
threshold, or there are more than 4 items and the average item length exceeds
3 (the division guarded to 0 when there are no items). -/
def extractPageText (items : List String) (digitalTextThreshold : Nat) :
    String × Bool :=
  let extractedText := collapseWs (String.join (items.map (fun s => s ++ " ")))
  let charCount := (items.map String.length).sum
  let tokenCount := items.length
  let totalTokenLength := (items.map String.length).sum
  let isDigital :=
    decide (charCount ≥ digitalTextThreshold) ||
    (decide (items.length > 4) &&
      (if tokenCount = 0 then false else decide (totalTokenLength > 3 * tokenCount)))
  (extractedText, isDigital)

example : (extractPageText ["hello", "world"] 10).2 = true := by decide
example : (extractPageText ["hello", "world"] 11).2 = false := by decide
example : (extractPageText ["abcd", "abcd", "abcd", "abcd", "abcd"] 100).2 = true := by decide

/-! ### The OCR retry wrapper (runOcrWithRetries) -/

instance {ε α : Type} [DecidableEq ε] [DecidableEq α] : DecidableEq (Except ε α) :=
  fun x y =>
    match x, y with
    | Except.ok a, Except.ok b => decidable_of_iff (a = b) (by simp)
    | Except.error a, Except.error b => decidable_of_iff (a = b) (by simp)
    | Except.ok _, Except.error _ => isFalse (by simp)
    | Except.error _, Except.ok _ => isFalse (by simp)

/-- The observable outcome of one call of ocrAdapter.recognize, raced against
the timeout promise: either recognize settles first (with a success or a
rejection), or the timeout fires first. -/
inductive AttemptOutcome where
  | finishes (r : Except String (String × Option Nat))
  | timesOut
deriving DecidableEq

/-- The rejection message of the timeout promise (ocr.service.ts line 557). -/
def timeoutMessage (timeoutMs : Nat) : String :=
  "OCR timed out after " ++ toString timeoutMs ++ "ms"

/-- The settled value of Promise.race of one recognize attempt against the
timeout: a timeout becomes a rejection carrying the timeout message, i.e. a
failed attempt. -/
def attemptResult (timeoutMs : Nat) : AttemptOutcome → Except String (String × Option Nat)
  | AttemptOutcome.finishes r => r
  | AttemptOutcome.timesOut => Except.error (timeoutMessage timeoutMs)

/-- Trace of one runOcrWithRetries execution: how many times recognize was
called, the backoff sleeps performed between attempts (in ms, in order), and
the overall outcome. -/
structure RetryTrace where
  calls : Nat
  sleeps : List Nat
  result : Except String (String × Option Nat)
deriving DecidableEq

/-- The loop body of runOcrWithRetries (ocr.service.ts lines 553-567) for
attempts i, i+1, ... with the given remaining iteration budget (the loop runs
while i ≤ retries, so the budget at entry is retries + 1). A successful race
returns; a failed race rethrows at i = retries, else sleeps 1000 * (i + 1) ms
and continues. An exhausted budget is the unreachable trailing throw of line
568. -/
def runOcrGo (env : Nat → AttemptOutcome) (timeoutMs retries : Nat) :
    Nat → Nat → RetryTrace
  | _, 0 => { calls := 0, sleeps := [], result := Except.error "Should not reach here" }
  | i, fuel + 1 =>
    match attemptResult timeoutMs (env i) with
    | Except.ok r => { calls := 1, sleeps := [], result := Except.ok r }
    | Except.error e =>
      if i = retries then { calls := 1, sleeps := [], result := Except.error e }
      else
        let rest := runOcrGo env timeoutMs retries (i + 1) fuel
        { calls := rest.calls + 1
          sleeps := 1000 * (i + 1) :: rest.sleeps
          result := rest.result }

/-- runOcrWithRetries (ocr.service.ts lines 545-569): retries defaults to 2 at
the single call site, giving at most retries + 1 recognize calls. -/
def runOcrWithRetries (env : Nat → AttemptOutcome) (timeoutMs : Nat)
    (retries : Nat := 2) : RetryTrace :=
  runOcrGo env timeoutMs retries 0 (retries + 1)

/-! ### The per-page job and the document orchestrator (extractFromFile) -/

/-- The progress checkpoints inside one page job (ocr.service.ts lines 393,
417, 429, 439, 483). The Processing checkpoint is the only one invoked outside
the page-level try/catch. -/
inductive PageStep where
  | processing
  | rasterizing
  | preprocessing
  | runningOcr
  | completed
deriving DecidableEq

/-- The document-level progress checkpoints (ocr.service.ts lines 381, 384,
511). -/
inductive DocStep where
  | initializing
  | pdfLoaded
  | finished
deriving DecidableEq

/-- The message of an error thrown by the caller-supplied progress callback
(the model fixes one message; only the fact that it throws matters). -/
def cbThrowMessage : String := "progress callback threw"

/-- Environment of one page job: the outcome of each external call the job
makes, and whether the progress callback throws at each checkpoint. -/
structure PageEnv where
  digital : Except String (String × Bool)
  raster : Except String Unit
  preprocess : Except String Unit
  ocrAttempts : Nat → AttemptOutcome
  cbThrows : PageStep → Bool

/-- Environment of one extractFromFile call. -/
structure DocEnv where
  numPages : Except String Nat
  page : Nat → PageEnv
  docCbThrows : DocStep → Bool

/-- Everything one page job contributes to the shared orchestrator state:
whether its promise rejected (an exception escaped the job function), the
PageResult values it pushed (in push order), the ExtractError values it
pushed, the counter increments, and how many times it invoked
cleanupJobTempDir (always on the job temp directory, since the dirname of a
path created by createTempFilePath inside jobTempDir is jobTempDir itself). -/
structure PageJobOutcome where
  rejected : Option String
  pushedResults : List PageResult
  pushedErrors : List ExtractError
  ocrdInc : Nat
  digitalInc : Nat
  scannedInc : Nat
  cleanupCalls : Nat
deriving DecidableEq

/-- The body of the inner try block of the OCR branch (ocr.service.ts lines
422-463 up to the OCR call): rasterize, report progress, preprocess, report
progress, then OCR with retries; the first exception (including one thrown by
the progress callback at these checkpoints) short-circuits. -/
def innerOcrBody (eff : EffectiveOptions) (env : PageEnv) :
    Except String (String × Option Nat) := do
  _ ← env.raster
  if env.cbThrows PageStep.preprocessing then throw cbThrowMessage
  _ ← env.preprocess
  if env.cbThrows PageStep.runningOcr then throw cbThrowMessage
  (runOcrWithRetries env.ocrAttempts eff.timeoutMs).result

/-- The PageResult pushed by the page-level catch handler (ocr.service.ts
lines 487-495). -/
def failurePageResult (pageNumber : Nat) : PageResult :=
  { pageNumber := pageNumber
    isDigital := false
    ocrUsed := false
    text := ""
    charCount := 0
    ocrConfidence := none
    confidence := Confidence.low }

/-- One page job of extractFromFile (ocr.service.ts lines 392-497), direct
translation of the JS control flow. The Processing progress call sits before
the try, so its exception rejects the job promise; every later exception is
caught by the page-level catch. The counters pagesOcrd and scannedPages are
incremented on entering the OCR branch, before any fallible OCR work. The
inner try/finally around rasterize/preprocess/OCR invokes cleanupJobTempDir
on the job temp directory when debug is unset, whether or not the body threw;
cleanupJobTempDir swallows filesystem errors and never throws. -/
def runPageJob (eff : EffectiveOptions) (pageNumber : Nat) (env : PageEnv) :
    PageJobOutcome :=
  if env.cbThrows PageStep.processing then
    { rejected := some cbThrowMessage, pushedResults := [], pushedErrors := []
      ocrdInc := 0, digitalInc := 0, scannedInc := 0, cleanupCalls := 0 }
  else
    match env.digital with
    | Except.error e =>
      { rejected := none
        pushedResults := [failurePageResult pageNumber]
        pushedErrors := [{ page := some pageNumber, message := e }]
        ocrdInc := 0, digitalInc := 0, scannedInc := 0, cleanupCalls := 0 }
    | Except.ok (digitalText, isDigital) =>
      if needsOcr isDigital digitalText.length eff.digitalTextThreshold eff.ocrFallback then
        -- pagesOcrd++ and scannedPages++ precede the next progress call.
        if env.cbThrows PageStep.rasterizing then
          { rejected := none
            pushedResults := [failurePageResult pageNumber]
            pushedErrors := [{ page := some pageNumber, message := cbThrowMessage }]
            ocrdInc := 1, digitalInc := 0, scannedInc := 1, cleanupCalls := 0 }
        else
          -- The inner try of lines 422-463; the finally of lines 464-469.
          let innerCleanup := if eff.debug then 0 else 1
          match innerOcrBody eff env with
          | Except.error e =>
            { rejected := none
              pushedResults := [failurePageResult pageNumber]
              pushedErrors := [{ page := some pageNumber, message := e }]
              ocrdInc := 1, digitalInc := 0, scannedInc := 1, cleanupCalls := innerCleanup }
          | Except.ok (ocrText, ocrConf) =>
            let merged :=
              if eff.ocrFallback = OcrFallback.preferLonger then
                preferLongerMerge digitalText ocrText
              else
                (ocrText, Confidence.ocr)
            let res : PageResult :=
              { pageNumber := pageNumber
                isDigital := isDigital
                ocrUsed := true
                text := merged.1
                charCount := merged.1.length
                ocrConfidence := ocrConf
                confidence := merged.2 }
            if env.cbThrows PageStep.completed then
              { rejected := none
                pushedResults := [res, failurePageResult pageNumber]
                pushedErrors := [{ page := some pageNumber, message := cbThrowMessage }]
                ocrdInc := 1, digitalInc := 0, scannedInc := 1, cleanupCalls := innerCleanup }
            else
              { rejected := none
                pushedResults := [res]
                pushedErrors := []
                ocrdInc := 1, digitalInc := 0, scannedInc := 1, cleanupCalls := innerCleanup }
      else
        let res : PageResult :=
          { pageNumber := pageNumber
            isDigital := isDigital
            ocrUsed := false
            text := digitalText
            charCount := digitalText.length
            ocrConfidence := none
            confidence := if isDigital then Confidence.high else Confidence.low }
        if env.cbThrows PageStep.completed then
          { rejected := none
            pushedResults := [res, failurePageResult pageNumber]
            pushedErrors := [{ page := some pageNumber, message := cbThrowMessage }]
            ocrdInc := 0, digitalInc := 1, scannedInc := 0, cleanupCalls := 0 }
        else
          { rejected := none
            pushedResults := [res]
            pushedErrors := []
            ocrdInc := 0, digitalInc := 1, scannedInc := 0, cleanupCalls := 0 }

/-- The ordering the final results.sort comparator induces (compare by
pageNumber). -/
def pageLE (a b : PageResult) : Prop := a.pageNumber ≤ b.pageNumber

instance : DecidableRel pageLE := fun a b => Nat.decLe a.pageNumber b.pageNumber

instance : IsTotal PageResult pageLE := ⟨fun a b => Nat.le_total a.pageNumber b.pageNumber⟩

instance : IsTrans PageResult pageLE := ⟨fun _ _ _ => Nat.le_trans⟩

/-- The outcome of one extractFromFile call: its returned value or thrown
error, together with the total number of cleanupJobTempDir invocations on the
job temp directory across the whole call (per-page inner cleanups plus the
final cleanup of the finally block, which always runs and never throws). -/
structure RunOutcome where
  result : Except String ExtractResult
  cleanupCalls : Nat
deriving DecidableEq

/-- The fan-in of extractFromFile (ocr.service.ts lines 503-525): sort the
pushed results by page number, join the texts with a blank line, collect the
pushed errors (in submission order) and compute the stats from the counter
increments (single-threaded increments commute, so each counter is the sum of
the per-job increments). -/
def mergeResults (eff : EffectiveOptions) (numPages : Nat)
    (outcomes : List PageJobOutcome)
    (reorder : List PageResult → List PageResult) : ExtractResult :=
  let results := reorder (outcomes.map PageJobOutcome.pushedResults).flatten
  let sorted := List.insertionSort pageLE results
  { numPages := numPages
    pages := sorted
    fullText := String.intercalate "\n\n" (sorted.map PageResult.text)
    errors := (outcomes.map PageJobOutcome.pushedErrors).flatten
    stats :=
      { pagesOcrd := (outcomes.map PageJobOutcome.ocrdInc).sum
        concurrency := eff.concurrency
        digitalPages := (outcomes.map PageJobOutcome.digitalInc).sum
        scannedPages := (outcomes.map PageJobOutcome.scannedInc).sum } }

/-- OcrService.extractFromFile (ocr.service.ts lines 355-540). The reorder
parameter stands for the nondeterministic interleaving of the page workers
pushes into the shared results array; the theorems quantify over every
permutation, and the identity is the schedule where pages complete in order.
When some page job rejects, Promise.all rejects and the error is rethrown,
but the already-submitted jobs still run to completion, so their cleanup
invocations still count. The finally block always performs the final cleanup
unless debug is set. -/
def extractFromFile (options : ExtractOptions) (env : DocEnv)
    (reorder : List PageResult → List PageResult) : RunOutcome :=
  let eff := mkEffectiveOptions options
  let finalCleanup := if eff.debug then 0 else 1
  if env.docCbThrows DocStep.initializing then
    { result := Except.error cbThrowMessage, cleanupCalls := finalCleanup }
  else
    match env.numPages with
    | Except.error e => { result := Except.error e, cleanupCalls := finalCleanup }
    | Except.ok numPages =>
      if env.docCbThrows DocStep.pdfLoaded then
        { result := Except.error cbThrowMessage, cleanupCalls := finalCleanup }
      else
        let outcomes :=
          (List.range numPages).map (fun k => runPageJob eff (k + 1) (env.page (k + 1)))
        let pageCleanups := (outcomes.map PageJobOutcome.cleanupCalls).sum
        match outcomes.findSome? PageJobOutcome.rejected with
        | some e =>
          { result := Except.error e, cleanupCalls := pageCleanups + finalCleanup }
        | none =>
          if env.docCbThrows DocStep.finished then
            { result := Except.error cbThrowMessage
              cleanupCalls := pageCleanups + finalCleanup }
          else
            { result := Except.ok (mergeResults eff numPages outcomes reorder)
              cleanupCalls := pageCleanups + finalCleanup }

/-! ### General helper lemmas -/

theorem sum_map_add {α : Type} (f g : α → Nat) (l : List α) :
    (l.map (fun a => f a + g a)).sum = (l.map f).sum + (l.map g).sum := by
  induction l with
  | nil => rfl
  | cons a l ih => simp only [List.map_cons, List.sum_cons, ih]; omega

theorem flatten_map_eq_map {α β : Type} (g : α → List β) (f : α → β) (l : List α)
    (h : ∀ a ∈ l, g a = [f a]) : (l.map g).flatten = l.map f := by
  induction l with
  | nil => rfl
  | cons a l ih =>
    simp only [List.map_cons, List.flatten_cons, h a (List.mem_cons_self a l)]
    rw [ih (fun b hb => h b (List.mem_cons_of_mem a hb))]
    rfl

/-! ### Claim theorems -/

/-- C2: for every combination of isDigital and ocrFallback (and any digital
text length and threshold), the needsOcr expression of extractFromFile equals
the decision table of spec section 4.1: false exactly when the page is digital
and the fallback is when-empty. -/
theorem needsOcr_decision_table (isDigital : Bool) (digitalTextLength threshold : Nat)
    (fb : OcrFallback) :
    needsOcr isDigital digitalTextLength threshold fb =
      !(isDigital && decide (fb = OcrFallback.whenEmpty)) := by
  cases isDigital <;> cases fb <;> simp [needsOcr]

-- A 0-page document environment: extractFromFile succeeds without any page
-- work, exposing the effective options through stats.concurrency.
def emptyPageEnv : PageEnv :=
  { digital := Except.ok ("", false)
    raster := Except.ok ()
    preprocess := Except.ok ()
    ocrAttempts := fun _ => AttemptOutcome.timesOut
    cbThrows := fun _ => false }

def zeroPagesDocEnv : DocEnv :=
  { numPages := Except.ok 0
    page := fun _ => emptyPageEnv
    docCbThrows := fun _ => false }

/-- C10: every numeric option supplied as 0 is replaced by its default
(concurrency 4, digitalTextThreshold 20, dpi 300, timeoutMs 120000), because
the effective options are built with the JS or operator against the defaults;
and a call with concurrency 0 therefore runs (and reports) concurrency 4. -/
theorem falsy_numeric_options_defaulted :
    mkEffectiveOptions
        { concurrency := some 0, dpi := some 0, digitalTextThreshold := some 0,
          timeoutMs := some 0 } =
      { languages := ["eng"], concurrency := 4, dpi := 300, digitalTextThreshold := 20,
        ocrFallback := OcrFallback.whenEmpty, timeoutMs := 120000, debug := false } ∧
    (extractFromFile { concurrency := some 0 } zeroPagesDocEnv id).result.map
        (fun r => r.stats.concurrency) = Except.ok 4 := by
  constructor
  · rfl
  · rfl

/-- C8: extractPageText classifies a page as digital exactly when the total
embedded-text character count reaches the threshold, or there are more than 4
text fragments whose average length (as an exact rational) exceeds 3. -/
theorem extractPageText_digital_iff (items : List String) (threshold : Nat) :
    (extractPageText items threshold).2 = true ↔
      (threshold ≤ (items.map String.length).sum ∨
        (4 < items.length ∧
          (3 : ℚ) < (((items.map String.length).sum : ℚ) / (items.length : ℚ)))) := by
  rcases Nat.eq_zero_or_pos items.length with h0 | hpos
  · have hnil : items = [] := List.length_eq_zero.mp h0
    subst hnil
    simp [extractPageText]
  · have hq : (0 : ℚ) < (items.length : ℚ) := by exact_mod_cast hpos
    have hne : items.length ≠ 0 := Nat.pos_iff_ne_zero.mp hpos
    rw [lt_div_iff₀ hq]
    have hcast : ((3 : ℚ) * (items.length : ℚ) < ((items.map String.length).sum : ℚ)) ↔
        3 * items.length < (items.map String.length).sum := by
      exact_mod_cast Iff.rfl
    rw [hcast]
    simp [extractPageText, hne]


/-- Invariant-carrying specification of the retry loop body: starting at
attempt i with exactly the remaining budget of the loop, the trace makes
between 1 and budget recognize calls, sleeps 1000 * (attempt index + 1) ms
after every failed non-final attempt, and, when every attempt up to retries
fails, ends with the error of attempt retries. -/
theorem runOcrGo_spec (env : Nat → AttemptOutcome) (t retries : Nat) :
    ∀ fuel i, retries + 1 = i + fuel → i ≤ retries →
      (1 ≤ (runOcrGo env t retries i fuel).calls ∧
        (runOcrGo env t retries i fuel).calls ≤ fuel) ∧
      (runOcrGo env t retries i fuel).sleeps =
        (List.range ((runOcrGo env t retries i fuel).calls - 1)).map
          (fun j => 1000 * (i + j + 1)) ∧
      ∀ e, (∀ j, i ≤ j → j ≤ retries → (attemptResult t (env j)).isOk = false) →
        attemptResult t (env retries) = Except.error e →
        (runOcrGo env t retries i fuel).result = Except.error e := by
  intro fuel
  induction fuel with
  | zero => intro i hinv hi; omega
  | succ fuel ih =>
    intro i hinv hi
    cases hA : attemptResult t (env i) with
    | ok r =>
      refine ⟨⟨?_, ?_⟩, ?_, ?_⟩
      · simp [runOcrGo, hA]
      · simp [runOcrGo, hA]
      · simp [runOcrGo, hA]
      · intro e hfail _
        have hbad := hfail i le_rfl hi
        rw [hA] at hbad
        simp [Except.isOk, Except.toBool] at hbad
    | error e0 =>
      by_cases hi2 : i = retries
      · subst hi2
        refine ⟨⟨?_, ?_⟩, ?_, ?_⟩
        · simp [runOcrGo, hA]
        · simp [runOcrGo, hA]
        · simp [runOcrGo, hA]
        · intro e _ hlast
          rw [hA] at hlast
          simp only [runOcrGo, hA]
          simpa using hlast
      · have hinv2 : retries + 1 = (i + 1) + fuel := by omega
        have hle : i + 1 ≤ retries := by omega
        obtain ⟨⟨hc1, hc2⟩, hsl, hres⟩ := ih (i + 1) hinv2 hle
        refine ⟨⟨?_, ?_⟩, ?_, ?_⟩
        · simp [runOcrGo, hA, hi2]
        · simp [runOcrGo, hA, hi2]; omega
        · simp only [runOcrGo, hA, hi2, if_false]
          obtain ⟨c, hc⟩ : ∃ c, (runOcrGo env t retries (i + 1) fuel).calls = c + 1 :=
            ⟨(runOcrGo env t retries (i + 1) fuel).calls - 1, by omega⟩
          rw [hsl, hc]
          simp only [Nat.add_sub_cancel, List.range_succ_eq_map, List.map_cons,
            List.map_map]
          refine List.cons_eq_cons.mpr ⟨by omega, ?_⟩
          apply List.map_congr_left
          intro j _
          simp only [Function.comp_apply, Nat.succ_eq_add_one]
          ring
        · intro e hfail hlast
          simp only [runOcrGo, hA, hi2, if_false]
          exact hres e (fun j hj1 hj2 => hfail j (by omega) hj2) hlast

/-- C7: runOcrWithRetries calls recognize at most retries + 1 times (and at
least once); between consecutive attempts it sleeps 1000 ms times the 1-based
index of the attempt that just failed, i.e. the sleep list is
1000, 2000, ..., linear backoff; a raced-out attempt surfaces as a failed
attempt carrying the timeout message; and when every attempt fails, the
error of the last attempt (attempt index retries) is the propagated result. -/
theorem runOcrWithRetries_spec (env : Nat → AttemptOutcome) (t retries : Nat) :
    ((runOcrWithRetries env t retries).calls ≤ retries + 1 ∧
      1 ≤ (runOcrWithRetries env t retries).calls) ∧
    (runOcrWithRetries env t retries).sleeps =
      (List.range ((runOcrWithRetries env t retries).calls - 1)).map
        (fun j => 1000 * (j + 1)) ∧
    (∀ i, env i = AttemptOutcome.timesOut →
      attemptResult t (env i) = Except.error (timeoutMessage t)) ∧
    ∀ e, (∀ j, j ≤ retries → (attemptResult t (env j)).isOk = false) →
      attemptResult t (env retries) = Except.error e →
      (runOcrWithRetries env t retries).result = Except.error e := by
  obtain ⟨⟨h1, h2⟩, hsl, hres⟩ :=
    runOcrGo_spec env t retries (retries + 1) 0 (by omega) (Nat.zero_le retries)
  refine ⟨⟨h2, h1⟩, ?_, ?_, ?_⟩
  · rw [runOcrWithRetries, hsl]
    apply List.map_congr_left
    intro j _
    omega
  · intro i hto
    rw [hto]
    rfl
  · intro e hfail hlast
    exact hres e (fun j _ hj => hfail j hj) hlast

/-! ### Structural lemmas about one page job -/

/-- Whether a page job reaches the inner try block around
rasterize/preprocess/OCR: the Processing callback did not throw, digital
extraction succeeded, the fallback policy demands OCR, and the Rasterizing
callback did not throw. -/
def enteredOcrPhase (eff : EffectiveOptions) (env : PageEnv) : Bool :=
  !env.cbThrows PageStep.processing &&
    (match env.digital with
     | Except.error _ => false
     | Except.ok (digitalText, isDigital) =>
       needsOcr isDigital digitalText.length eff.digitalTextThreshold eff.ocrFallback &&
       !env.cbThrows PageStep.rasterizing)

/-- A page job rejects its promise exactly when the progress callback throws
at the Processing checkpoint, the only fallible step outside the page-level
try/catch. -/
theorem runPageJob_rejected (eff : EffectiveOptions) (pn : Nat) (env : PageEnv) :
    (runPageJob eff pn env).rejected =
      if env.cbThrows PageStep.processing then some cbThrowMessage else none := by
  unfold runPageJob
  repeat' split <;> try simp_all

/-- A page job invokes cleanupJobTempDir (always on the job temp directory)
exactly once when debug is unset and the job reached the inner OCR try block,
and never otherwise. -/
theorem runPageJob_cleanup (eff : EffectiveOptions) (pn : Nat) (env : PageEnv) :
    (runPageJob eff pn env).cleanupCalls =
      if eff.debug then 0 else if enteredOcrPhase eff env then 1 else 0 := by
  unfold runPageJob enteredOcrPhase
  repeat' split <;> try simp_all

/-- A page job that did not reject increments the digital bucket, the scanned
bucket, or neither, and the last case happens exactly when digital extraction
threw. -/
theorem runPageJob_buckets (eff : EffectiveOptions) (pn : Nat) (env : PageEnv)
    (h : (runPageJob eff pn env).rejected = none) :
    (runPageJob eff pn env).digitalInc + (runPageJob eff pn env).scannedInc +
      (if env.digital.isOk then 0 else 1) = 1 := by
  unfold runPageJob at *
  repeat' split <;> try simp_all [Except.isOk, Except.toBool]

/-- Every PageResult a page job pushes satisfies the OCR-confidence
invariant: a result with ocrUsed false carries ocrConfidence none. -/
theorem runPageJob_ocrConfidence (eff : EffectiveOptions) (pn : Nat) (env : PageEnv) :
    ∀ p ∈ (runPageJob eff pn env).pushedResults,
      p.ocrUsed = false → p.ocrConfidence = none := by
  intro p hp hused
  unfold runPageJob at hp
  repeat' split at hp <;> try simp_all [failurePageResult]
  all_goals rcases hp with hp | hp <;> subst hp <;> simp_all

/-- A page job that did not reject and whose Completed checkpoint does not
throw pushes exactly one PageResult, carrying its own page number. -/
theorem runPageJob_single_push (eff : EffectiveOptions) (pn : Nat) (env : PageEnv)
    (hrej : (runPageJob eff pn env).rejected = none)
    (hcb : env.cbThrows PageStep.completed = false) :
    (runPageJob eff pn env).pushedResults.map PageResult.pageNumber = [pn] := by
  unfold runPageJob at *
  repeat' split <;> try simp_all [failurePageResult]

theorem sum_map_one {α : Type} (l : List α) : (l.map (fun _ => (1 : Nat))).sum = l.length := by
  induction l <;> simp_all <;> omega

/-! ### Document-level theorems -/

/-- The number of pages of a run that reach the inner OCR try block (each of
which performs one extra cleanupJobTempDir invocation when debug is unset). -/
def ocrPhaseCount (eff : EffectiveOptions) (env : DocEnv) : Nat :=
  if env.docCbThrows DocStep.initializing then 0 else
  match env.numPages with
  | Except.error _ => 0
  | Except.ok n =>
    if env.docCbThrows DocStep.pdfLoaded then 0 else
    ((List.range n).map
      (fun k => if enteredOcrPhase eff (env.page (k + 1)) then 1 else 0)).sum

/-- C1 (amended): when debug is set, cleanupJobTempDir is never invoked; when
debug is unset, it is invoked on the job temp directory exactly 1 + k times
per extractFromFile call on every exit path, where k is the number of pages
whose job reached the inner rasterize/preprocess/OCR try block (the per-page
finally cleans up the dirname of the page image path, which is the job temp
directory itself) — not exactly once. -/
theorem cleanup_call_count (options : ExtractOptions) (env : DocEnv)
    (reorder : List PageResult → List PageResult) :
    (extractFromFile options env reorder).cleanupCalls =
      if (mkEffectiveOptions options).debug then 0
      else 1 + ocrPhaseCount (mkEffectiveOptions options) env := by
  have hjob : ∀ n : Nat,
      (((List.range n).map
          (fun k => runPageJob (mkEffectiveOptions options) (k + 1) (env.page (k + 1)))).map
        PageJobOutcome.cleanupCalls).sum =
      if (mkEffectiveOptions options).debug then 0
      else ((List.range n).map
        (fun k => if enteredOcrPhase (mkEffectiveOptions options) (env.page (k + 1)) then 1
          else 0)).sum := by
    intro n
    rw [List.map_map]
    by_cases hdbg : (mkEffectiveOptions options).debug
    · rw [if_pos hdbg]
      apply List.sum_eq_zero
      intro x hx
      simp only [List.mem_map] at hx
      obtain ⟨k, _, rfl⟩ := hx
      simp [Function.comp_apply, runPageJob_cleanup, hdbg]
    · rw [if_neg hdbg]
      congr 1
      apply List.map_congr_left
      intro k _
      simp [Function.comp_apply, runPageJob_cleanup, hdbg]
  unfold extractFromFile ocrPhaseCount
  by_cases h1 : env.docCbThrows DocStep.initializing
  · simp only [h1, if_true]
    all_goals by_cases hdbg : (mkEffectiveOptions options).debug <;> simp [hdbg]
  · simp only [h1, if_false]
    cases hnp : env.numPages with
    | error e =>
      all_goals by_cases hdbg : (mkEffectiveOptions options).debug <;> simp [hdbg]
    | ok n =>
      by_cases h2 : env.docCbThrows DocStep.pdfLoaded
      · simp only [h2, if_true]
        all_goals by_cases hdbg : (mkEffectiveOptions options).debug <;> simp [hdbg]
      · simp only [h2, if_false]
        all_goals by_cases hdbg : (mkEffectiveOptions options).debug <;>
          cases hfs : ((List.range n).map
              (fun k => runPageJob (mkEffectiveOptions options) (k + 1)
                (env.page (k + 1)))).findSome? PageJobOutcome.rejected <;>
          by_cases h3 : env.docCbThrows DocStep.finished <;>
          simp only [hfs, h3, if_true, if_false] <;>
          rw [hjob n] <;>
          simp [hdbg] <;>
          try omega

/-- The number of pages (among 1..n) whose digital text extraction threw. -/
def digitalFailCount (env : DocEnv) (n : Nat) : Nat :=
  ((List.range n).map
    (fun k => if (env.page (k + 1)).digital.isOk then 0 else 1)).sum

/-- The page job outcomes of a run on a document with n pages. -/
def jobOutcomes (options : ExtractOptions) (env : DocEnv) (n : Nat) :
    List PageJobOutcome :=
  (List.range n).map
    (fun k => runPageJob (mkEffectiveOptions options) (k + 1) (env.page (k + 1)))

/-- Characterization of the result of extractFromFile when the page count is
determined: errors of the document-level callback checkpoints and rejected
page jobs propagate; otherwise mergeResults of the page job outcomes is
returned. -/
theorem extract_result_char (options : ExtractOptions) (env : DocEnv)
    (reorder : List PageResult → List PageResult) (n : Nat)
    (hn : env.numPages = Except.ok n) :
    (extractFromFile options env reorder).result =
      if env.docCbThrows DocStep.initializing then Except.error cbThrowMessage
      else if env.docCbThrows DocStep.pdfLoaded then Except.error cbThrowMessage
      else
        ((jobOutcomes options env n).findSome? PageJobOutcome.rejected).elim
          (if env.docCbThrows DocStep.finished then Except.error cbThrowMessage
           else Except.ok
            (mergeResults (mkEffectiveOptions options) n (jobOutcomes options env n) reorder))
          Except.error := by
  unfold extractFromFile jobOutcomes
  rw [hn]
  by_cases h1 : env.docCbThrows DocStep.initializing
  · simp [h1]
  · simp only [h1, if_false]
    by_cases h2 : env.docCbThrows DocStep.pdfLoaded
    · simp [h2]
    · simp only [h2, if_false]
      cases hfs : ((List.range n).map
          (fun k => runPageJob (mkEffectiveOptions options) (k + 1)
            (env.page (k + 1)))).findSome? PageJobOutcome.rejected with
      | some e => simp [hfs, Option.elim]
      | none =>
        simp only [hfs, Option.elim]
        by_cases h3 : env.docCbThrows DocStep.finished <;> simp [h3]

/-- When the page count cannot be determined, extractFromFile propagates that
error (unless the Initializing checkpoint already threw). -/
theorem extract_result_numPages_error (options : ExtractOptions) (env : DocEnv)
    (reorder : List PageResult → List PageResult) (e : String)
    (hn : env.numPages = Except.error e) :
    (extractFromFile options env reorder).result =
      if env.docCbThrows DocStep.initializing then Except.error cbThrowMessage
      else Except.error e := by
  unfold extractFromFile
  rw [hn]
  repeat' split <;> try simp_all

/-- A successful run pins down every control-flow condition: no document-level
callback checkpoint threw, no page job rejected, and the result is
mergeResults of the page job outcomes. -/
theorem extract_ok_elim (options : ExtractOptions) (env : DocEnv)
    (reorder : List PageResult → List PageResult) (r : ExtractResult)
    (hr : (extractFromFile options env reorder).result = Except.ok r) :
    ∃ n, env.numPages = Except.ok n ∧
      env.docCbThrows DocStep.initializing = false ∧
      env.docCbThrows DocStep.pdfLoaded = false ∧
      env.docCbThrows DocStep.finished = false ∧
      (∀ o ∈ jobOutcomes options env n, o.rejected = none) ∧
      r = mergeResults (mkEffectiveOptions options) n (jobOutcomes options env n) reorder := by
  cases hn : env.numPages with
  | error e =>
    rw [extract_result_numPages_error options env reorder e hn] at hr
    split at hr <;> exact absurd hr (by simp)
  | ok n =>
    rw [extract_result_char options env reorder n hn] at hr
    refine ⟨n, rfl, ?_⟩
    by_cases h1 : env.docCbThrows DocStep.initializing
    · rw [if_pos h1] at hr; exact absurd hr (by simp)
    rw [if_neg h1] at hr
    by_cases h2 : env.docCbThrows DocStep.pdfLoaded
    · rw [if_pos h2] at hr; exact absurd hr (by simp)
    rw [if_neg h2] at hr
    cases hfs : (jobOutcomes options env n).findSome? PageJobOutcome.rejected with
    | some e =>
      rw [hfs] at hr
      exact absurd hr (by simp [Option.elim])
    | none =>
      rw [hfs] at hr
      simp only [Option.elim] at hr
      by_cases h3 : env.docCbThrows DocStep.finished
      · rw [if_pos h3] at hr; exact absurd hr (by simp)
      rw [if_neg h3] at hr
      simp only [Except.ok.injEq] at hr
      exact ⟨by simpa using h1, by simpa using h2, by simpa using h3,
        List.findSome?_eq_none_iff.mp hfs, hr.symm⟩

/-- C3 (amended): in every ExtractResult returned by extractFromFile,
stats.digitalPages + stats.scannedPages equals numPages minus the number of
pages whose digital extraction step threw: a page that fails during
rasterization, preprocessing or OCR is still counted in scannedPages, but a
page that fails in digital extraction is counted in neither bucket, so the
claimed partition equality fails exactly on those pages. -/
theorem classification_partition_amended (options : ExtractOptions) (env : DocEnv)
    (reorder : List PageResult → List PageResult) (r : ExtractResult)
    (hr : (extractFromFile options env reorder).result = Except.ok r) :
    r.stats.digitalPages + r.stats.scannedPages + digitalFailCount env r.numPages =
      r.numPages := by
  obtain ⟨n, hn, h1, h2, h3, hrej, rfl⟩ := extract_ok_elim options env reorder r hr
  simp only [mergeResults, digitalFailCount, jobOutcomes, List.map_map]
  have key : ∀ k ∈ List.range n,
      ((PageJobOutcome.digitalInc ∘ fun k => runPageJob (mkEffectiveOptions options) (k + 1)
          (env.page (k + 1))) k +
        (PageJobOutcome.scannedInc ∘ fun k => runPageJob (mkEffectiveOptions options) (k + 1)
          (env.page (k + 1))) k) +
        (if (env.page (k + 1)).digital.isOk then 0 else 1) = 1 := by
    intro k hk
    have hb := runPageJob_buckets (mkEffectiveOptions options) (k + 1) (env.page (k + 1))
      (hrej _ (by simp only [jobOutcomes]; exact List.mem_map_of_mem _ hk))
    simpa [Function.comp_apply] using hb
  have hsum : ((List.range n).map
      (fun k =>
        ((PageJobOutcome.digitalInc ∘ fun k => runPageJob (mkEffectiveOptions options) (k + 1)
            (env.page (k + 1))) k +
          (PageJobOutcome.scannedInc ∘ fun k => runPageJob (mkEffectiveOptions options) (k + 1)
            (env.page (k + 1))) k) +
          (if (env.page (k + 1)).digital.isOk then 0 else 1))).sum =
      ((List.range n).map (fun _ => (1 : Nat))).sum :=
    congrArg List.sum (List.map_congr_left key)
  rw [sum_map_add, sum_map_add, sum_map_one, List.length_range] at hsum
  exact hsum

/-- No page job of a run rejects exactly when the progress callback does not
throw at the Processing checkpoint of any page 1..n. -/
theorem jobOutcomes_rejected_none_iff (options : ExtractOptions) (env : DocEnv) (n : Nat) :
    (jobOutcomes options env n).findSome? PageJobOutcome.rejected = none ↔
      ∀ k, k < n → (env.page (k + 1)).cbThrows PageStep.processing = false := by
  rw [List.findSome?_eq_none_iff]
  constructor
  · intro h k hk
    have hmem := h _ (List.mem_map_of_mem _ (List.mem_range.mpr hk))
    rw [runPageJob_rejected] at hmem
    by_cases hcb : (env.page (k + 1)).cbThrows PageStep.processing
    · rw [if_pos hcb] at hmem; cases hmem
    · simpa using hcb
  · intro h o ho
    simp only [jobOutcomes, List.mem_map, List.mem_range] at ho
    obtain ⟨k, hk, rfl⟩ := ho
    simp [runPageJob_rejected, h k hk]

/-- C5 (amended): errors thrown by the progressCallback are not uniformly
swallowed. The run returns a result exactly when the callback does not throw
at the three document-level checkpoints nor at the Processing checkpoint of
any page (the one per-page call sitting outside the page try/catch, whose
exception rejects the page job and aborts the whole run through Promise.all);
a throw at the remaining per-page checkpoints only fails that page. -/
theorem progress_callback_abort_spec (options : ExtractOptions) (env : DocEnv)
    (reorder : List PageResult → List PageResult) (n : Nat)
    (hn : env.numPages = Except.ok n) :
    (extractFromFile options env reorder).result.isOk = true ↔
      (env.docCbThrows DocStep.initializing = false ∧
        env.docCbThrows DocStep.pdfLoaded = false ∧
        env.docCbThrows DocStep.finished = false ∧
        ∀ k, k < n → (env.page (k + 1)).cbThrows PageStep.processing = false) := by
  rw [extract_result_char options env reorder n hn]
  by_cases h1 : env.docCbThrows DocStep.initializing
  · simp [h1, Except.isOk, Except.toBool]
  · by_cases h2 : env.docCbThrows DocStep.pdfLoaded
    · simp [h1, h2, Except.isOk, Except.toBool]
    · cases hfs : (jobOutcomes options env n).findSome? PageJobOutcome.rejected with
      | some e =>
        simp only [h1, h2, hfs, if_false, Option.elim, Bool.not_eq_true]
        simp only [Except.isOk, Except.toBool]
        constructor
        · intro hFalse; cases hFalse
        · rintro ⟨-, -, -, hall⟩
          have : (jobOutcomes options env n).findSome? PageJobOutcome.rejected = none :=
            (jobOutcomes_rejected_none_iff options env n).mpr hall
          rw [hfs] at this
          cases this
      | none =>
        simp only [h1, h2, hfs, if_false, Option.elim]
        by_cases h3 : env.docCbThrows DocStep.finished
        · simp [h3, Except.isOk, Except.toBool]
        · simp only [h3, if_false]
          simp only [Except.isOk, Except.toBool]
          constructor
          · intro _
            exact ⟨by simpa using h1, by simpa using h2, by simpa using h3,
              (jobOutcomes_rejected_none_iff options env n).mp hfs⟩
          · intro _; rfl

/-- C9: every PageResult of every returned ExtractResult with ocrUsed false
has ocrConfidence null, including the failure results of pages whose jobs
threw. -/
theorem ocr_confidence_invariant (options : ExtractOptions) (env : DocEnv)
    (reorder : List PageResult → List PageResult)
    (hre : ∀ l, (reorder l).Perm l) (r : ExtractResult)
    (hr : (extractFromFile options env reorder).result = Except.ok r) :
    ∀ p ∈ r.pages, p.ocrUsed = false → p.ocrConfidence = none := by
  obtain ⟨n, hn, h1, h2, h3, hrej, rfl⟩ := extract_ok_elim options env reorder r hr
  intro p hp hused
  simp only [mergeResults] at hp
  have hp1 : p ∈ reorder ((jobOutcomes options env n).map PageJobOutcome.pushedResults).flatten :=
    (List.perm_insertionSort pageLE _).mem_iff.mp hp
  have hp2 : p ∈ ((jobOutcomes options env n).map PageJobOutcome.pushedResults).flatten :=
    (hre _).mem_iff.mp hp1
  rw [List.mem_flatten] at hp2
  obtain ⟨l, hl, hpl⟩ := hp2
  rw [List.mem_map] at hl
  obtain ⟨o, ho, rfl⟩ := hl
  simp only [jobOutcomes, List.mem_map] at ho
  obtain ⟨k, -, rfl⟩ := ho
  exact runPageJob_ocrConfidence _ _ _ p hpl hused

/-- C6 (amended): whenever extractFromFile returns, provided the progress
callback does not throw at the Completed checkpoint of any page, pages has
length numPages and its pageNumber fields are exactly 1..numPages in
ascending contiguous order, whatever the completion order of the workers. A
Completed-checkpoint throw lands in the page-level catch after the success
push and pushes a second result for the same page, breaking the claim. -/
theorem page_numbers_dense_amended (options : ExtractOptions) (env : DocEnv)
    (reorder : List PageResult → List PageResult)
    (hre : ∀ l, (reorder l).Perm l)
    (hcb : ∀ k, (env.page k).cbThrows PageStep.completed = false)
    (r : ExtractResult)
    (hr : (extractFromFile options env reorder).result = Except.ok r) :
    r.pages.length = r.numPages ∧
      r.pages.map PageResult.pageNumber = List.range' 1 r.numPages := by
  obtain ⟨n, hn, h1, h2, h3, hrej, rfl⟩ := extract_ok_elim options env reorder r hr
  simp only [mergeResults]
  have hflat : (((jobOutcomes options env n).map PageJobOutcome.pushedResults).flatten).map
      PageResult.pageNumber = List.range' 1 n := by
    rw [List.map_flatten]
    simp only [jobOutcomes, List.map_map]
    rw [flatten_map_eq_map
      (List.map PageResult.pageNumber ∘ PageJobOutcome.pushedResults ∘ fun k =>
        runPageJob (mkEffectiveOptions options) (k + 1) (env.page (k + 1)))
      (fun k => k + 1)]
    · rw [List.range'_eq_map_range]
      apply List.map_congr_left
      intro k _
      omega
    · intro k hk
      have hr1 : (runPageJob (mkEffectiveOptions options) (k + 1) (env.page (k + 1))).rejected
          = none := hrej _ (by simp only [jobOutcomes]; exact List.mem_map_of_mem _ hk)
      exact runPageJob_single_push _ _ _ hr1 (hcb (k + 1))
  have hperm : (List.insertionSort pageLE
        (reorder ((jobOutcomes options env n).map PageJobOutcome.pushedResults).flatten)).map
          PageResult.pageNumber |>.Perm (List.range' 1 n) := by
    rw [← hflat]
    exact List.Perm.map PageResult.pageNumber
      ((List.perm_insertionSort pageLE _).trans (hre _))
  have hsorted : List.Sorted (· ≤ ·)
      ((List.insertionSort pageLE
        (reorder ((jobOutcomes options env n).map PageJobOutcome.pushedResults).flatten)).map
          PageResult.pageNumber) :=
    List.Pairwise.map PageResult.pageNumber (fun _ _ h => h)
      (List.sorted_insertionSort pageLE _)
  have hsortedR : List.Sorted (· ≤ ·) (List.range' 1 n) :=
    (List.pairwise_lt_range' 1 n).imp (fun h => le_of_lt h)
  have heq := List.eq_of_perm_of_sorted hperm hsorted hsortedR
  refine ⟨?_, heq⟩
  have hlen := congrArg List.length heq
  simpa using hlen

/-- The amended prefer-longer selection rule, written from the spec side for
comparison with the code: keep the whitespace-collapsed digital text when its
length exceeds 80 percent of the collapsed OCR length (exactly: 5 times the
one exceeds 4 times the other) and exceeds the fixed default threshold
DEFAULT_DIGITAL_TEXT_THRESHOLD = 20 (the effective digitalTextThreshold
option is not consulted); otherwise keep the collapsed OCR text. -/
def preferLongerSpecText (digitalText ocrText : String) : String :=
  if 5 * (collapseWs digitalText).length > 4 * (collapseWs ocrText).length ∧
      (collapseWs digitalText).length > DEFAULT_DIGITAL_TEXT_THRESHOLD then
    collapseWs digitalText
  else collapseWs ocrText

/-- C4 (amended): under prefer-longer, when a page has digital text and OCR
succeeds, the page result text is the whitespace-collapsed digital text if
its length beats 80 percent of the collapsed OCR length and the fixed default
threshold 20 (the digitalTextThreshold option is ignored here), else the
collapsed OCR text; and the confidence label is ocr exactly when the chosen
text is string-equal to the raw OCR text, else high (so an OCR choice whose
collapse changed the raw OCR string is labelled high, not ocr). -/
theorem prefer_longer_merge_amended (eff : EffectiveOptions) (pn : Nat) (env : PageEnv)
    (digitalText ocrText : String) (isDigital : Bool) (ocrConf : Option Nat)
    (hfb : eff.ocrFallback = OcrFallback.preferLonger)
    (hcb : ∀ s, env.cbThrows s = false)
    (hdig : env.digital = Except.ok (digitalText, isDigital))
    (hocr : innerOcrBody eff env = Except.ok (ocrText, ocrConf)) :
    (runPageJob eff pn env).pushedResults =
      [{ pageNumber := pn
         isDigital := isDigital
         ocrUsed := true
         text := preferLongerSpecText digitalText ocrText
         charCount := (preferLongerSpecText digitalText ocrText).length
         ocrConfidence := ocrConf
         confidence := if preferLongerSpecText digitalText ocrText = ocrText
           then Confidence.ocr else Confidence.high }] := by
  have hneeds : needsOcr isDigital digitalText.length eff.digitalTextThreshold
      OcrFallback.preferLonger = true := by
    cases isDigital <;> simp [needsOcr]
  have hclean : getCleanerText digitalText ocrText =
      preferLongerSpecText digitalText ocrText := by
    unfold getCleanerText preferLongerSpecText
    by_cases hA : 5 * (collapseWs digitalText).length > 4 * (collapseWs ocrText).length <;>
      by_cases hB : (collapseWs digitalText).length > DEFAULT_DIGITAL_TEXT_THRESHOLD <;>
      simp [hA, hB]
  unfold runPageJob
  simp [hcb, hdig, hneeds, hocr, hfb, preferLongerMerge, hclean]

/-! ### Concrete environments for counterexamples and witnesses -/

/-- A page whose digital extraction yields the given text and flag, whose
rasterization and preprocessing succeed, whose OCR succeeds immediately with
the given output, and whose progress callback never throws. -/
def plainPage (digitalText : String) (isDigital : Bool) (ocrText : String)
    (ocrConf : Option Nat) : PageEnv :=
  { digital := Except.ok (digitalText, isDigital)
    raster := Except.ok ()
    preprocess := Except.ok ()
    ocrAttempts := fun _ => AttemptOutcome.finishes (Except.ok (ocrText, ocrConf))
    cbThrows := fun _ => false }

/-- A document environment from a list of page environments (page k is the
k-th entry, 1-based); the page count succeeds and the document-level progress
callback never throws. -/
def docOf (pages : List PageEnv) : DocEnv :=
  { numPages := Except.ok pages.length
    page := fun k => pages.getD (k - 1) (plainPage "" false "" none)
    docCbThrows := fun _ => false }

/-- Inhabitant used to read a successful result out of a run outcome. -/
def fallbackExtractResult : ExtractResult :=
  { numPages := 0, pages := [], fullText := "", errors := []
    stats := { pagesOcrd := 0, concurrency := 0, digitalPages := 0, scannedPages := 0 } }

/-- C1 counterexample: one scanned page under default options (debug unset,
fallback when-empty) makes the run succeed while invoking cleanupJobTempDir
twice on the job temp directory (once in the per-page finally, once in the
final finally), refuting invocation exactly once. -/
theorem cleanup_not_exactly_once_cex :
    (mkEffectiveOptions ({} : ExtractOptions)).debug = false ∧
    (extractFromFile ({} : ExtractOptions)
        (docOf [plainPage "" false "scanned text" (some 80)]) id).result.isOk = true ∧
    (extractFromFile ({} : ExtractOptions)
        (docOf [plainPage "" false "scanned text" (some 80)]) id).cleanupCalls = 2 := by
  refine ⟨rfl, ?_, ?_⟩ <;> rfl

/-- C3 counterexample: a single page whose digital extraction throws yields a
returned result with digitalPages + scannedPages = 0 but numPages = 1, so the
two buckets do not partition the pages. -/
theorem classification_partition_cex :
    (extractFromFile ({} : ExtractOptions)
        (docOf [{ plainPage "" false "x" none with digital := Except.error "bad xref" }])
        id).result.map
      (fun r => (r.stats.digitalPages + r.stats.scannedPages, r.numPages)) =
      Except.ok (0, 1) ∧ (0 : Nat) ≠ 1 := by
  refine ⟨?_, by decide⟩
  rfl

/-- C4 counterexample: with effective digitalTextThreshold 5 and prefer-longer,
a page with 10 characters of collapsed digital text and 3 characters of
collapsed OCR text satisfies the claimed condition for choosing the digital
text (10 exceeds 80 percent of 3 and exceeds the threshold 5), yet the code
returns the OCR text with confidence ocr, because getCleanerText compares
against the hardcoded default threshold 20 instead of the option. -/
def optsC4cex : ExtractOptions :=
  { digitalTextThreshold := some 5
    ocrFallback := some OcrFallback.preferLonger }

theorem prefer_longer_threshold_cex :
    (extractFromFile optsC4cex
        (docOf [plainPage "abcdefghij" true "xyz" (some 90)]) id).result.map
      (fun r => r.pages.map (fun p => (p.text, p.ocrUsed, p.confidence))) =
      Except.ok [("xyz", true, Confidence.ocr)] ∧
    (mkEffectiveOptions optsC4cex).digitalTextThreshold = 5 ∧
    5 * (collapseWs "abcdefghij").length > 4 * (collapseWs "xyz").length ∧
    (collapseWs "abcdefghij").length >
      (mkEffectiveOptions optsC4cex).digitalTextThreshold := by
  refine ⟨?_, rfl, by decide, by decide⟩
  rfl

/-- C5 counterexample: a progress callback that throws at the per-page
Processing checkpoint of page 1 (a checkpoint outside the page try/catch)
aborts the whole run: extractFromFile throws instead of returning a complete
ExtractResult, although the document and every external call are healthy. -/
theorem progress_callback_abort_cex :
    (docOf [{ plainPage "hello digital page text" true "ocr" (some 50) with
        cbThrows := fun s => decide (s = PageStep.processing) }]).numPages =
      Except.ok 1 ∧
    (extractFromFile ({} : ExtractOptions)
        (docOf [{ plainPage "hello digital page text" true "ocr" (some 50) with
          cbThrows := fun s => decide (s = PageStep.processing) }]) id).result =
      Except.error cbThrowMessage := by
  exact ⟨rfl, rfl⟩

/-- C6 counterexample: a progress callback that throws at the Completed
checkpoint (after the success push) makes the page-level catch push a second
result for the same page: the run returns normally with numPages = 1 but two
page entries, both numbered 1. -/
theorem page_count_duplicate_cex :
    (extractFromFile ({} : ExtractOptions)
        (docOf [{ plainPage "a long enough digital text body here" true "ocr" none with
          cbThrows := fun s => decide (s = PageStep.completed) }]) id).result.map
      (fun r => (r.numPages, r.pages.length, r.pages.map PageResult.pageNumber)) =
      Except.ok (1, 2, [1, 1]) := by
  rfl

/-! ### Witnesses -/

def envC3w : DocEnv :=
  docOf [plainPage "good page text over threshold yes" true "o" none,
    { plainPage "" false "x" none with digital := Except.error "page parse failure" }]

def resC3w : ExtractResult :=
  match (extractFromFile ({} : ExtractOptions) envC3w id).result with
  | Except.ok r => r
  | Except.error _ => fallbackExtractResult

/-- C3 witness: the amended partition equation at a concrete two-page run
with one digital-extraction failure. -/
theorem classification_partition_amended_witness :
    resC3w.stats.digitalPages + resC3w.stats.scannedPages +
      digitalFailCount envC3w resC3w.numPages = resC3w.numPages :=
  classification_partition_amended ({} : ExtractOptions) envC3w id resC3w rfl

def envC5w : DocEnv :=
  docOf [plainPage "plain digital page with enough text" true "o" none]

/-- C5 witness: the amended characterization applied at a concrete healthy
one-page run, yielding a successful result. -/
theorem progress_callback_abort_witness :
    (extractFromFile ({} : ExtractOptions) envC5w id).result.isOk = true :=
  (progress_callback_abort_spec ({} : ExtractOptions) envC5w id 1 rfl).mpr
    ⟨rfl, rfl, rfl, by decide⟩

def envC6w : DocEnv :=
  docOf [plainPage "first page digital body text ok!" true "o" none,
    plainPage "" false "second page ocr output" (some 75)]

def resC6w : ExtractResult :=
  match (extractFromFile ({} : ExtractOptions) envC6w id).result with
  | Except.ok r => r
  | Except.error _ => fallbackExtractResult

/-- C6 witness: the amended density property at a concrete two-page run with
one digital and one OCR page and no callback throws. -/
theorem page_numbers_dense_witness :
    resC6w.pages.length = resC6w.numPages ∧
      resC6w.pages.map PageResult.pageNumber = List.range' 1 resC6w.numPages :=
  page_numbers_dense_amended ({} : ExtractOptions) envC6w id
    (fun l => List.Perm.refl l)
    (fun k => match k with
      | 0 => rfl
      | 1 => rfl
      | 2 => rfl
      | _ + 3 => rfl)
    resC6w rfl

/-- C7 witness: an adapter that always times out under retries = 2 exhausts
three failed attempts and propagates the timeout error of the last one. -/
theorem runOcrWithRetries_spec_witness :
    (runOcrWithRetries (fun _ => AttemptOutcome.timesOut) 50 2).result =
      Except.error (timeoutMessage 50) :=
  (runOcrWithRetries_spec (fun _ => AttemptOutcome.timesOut) 50 2).2.2.2
    (timeoutMessage 50) (fun _ _ => rfl) rfl

def envC9w : DocEnv :=
  docOf [plainPage "digital page with plenty of text" true "o" none]

def resC9w : ExtractResult :=
  match (extractFromFile ({} : ExtractOptions) envC9w id).result with
  | Except.ok r => r
  | Except.error _ => fallbackExtractResult

/-- C9 witness: the invariant applied to the concrete first page of a
one-page digital run, which has ocrUsed false. -/
theorem ocr_confidence_invariant_witness :
    (resC9w.pages.getD 0 (failurePageResult 0)).ocrConfidence = none :=
  ocr_confidence_invariant ({} : ExtractOptions) envC9w id
    (fun l => List.Perm.refl l) resC9w rfl
    (resC9w.pages.getD 0 (failurePageResult 0)) (by decide) (by decide)

def effC4w : EffectiveOptions :=
  { languages := ["eng"], concurrency := 4, dpi := 300, digitalTextThreshold := 5
    ocrFallback := OcrFallback.preferLonger, timeoutMs := 1000, debug := false }

def pageC4w : PageEnv :=
  plainPage "short digital" true "the longer ocr output text" (some 66)

/-- C4 witness: the amended merge rule applied at a concrete prefer-longer
page whose OCR text wins. -/
theorem prefer_longer_merge_amended_witness :
    (runPageJob effC4w 1 pageC4w).pushedResults =
      [{ pageNumber := 1
         isDigital := true
         ocrUsed := true
         text := preferLongerSpecText "short digital" "the longer ocr output text"
         charCount := (preferLongerSpecText "short digital" "the longer ocr output text").length
         ocrConfidence := some 66
         confidence := if preferLongerSpecText "short digital" "the longer ocr output text" =
             "the longer ocr output text" then Confidence.ocr else Confidence.high }] :=
  prefer_longer_merge_amended effC4w 1 pageC4w "short digital"
    "the longer ocr output text" true (some 66) rfl (fun _ => rfl) rfl rfl

end Zenithino
